import Mathlib

/-!
Verification development for `psrecord/main.py` (fork by hordiales).

The program attaches to (or spawns) a process, then runs a sampling loop that
records CPU percentage, resident/virtual memory and I/O counters per
iteration, optionally writing each sample to a log file and accumulating
samples for a final chart.  This file gives a shallow embedding of the parts
of `main.py` that the specification's claims are about:

* `allChildren` embeds `all_children` (lines 48-61);
* `childStep` / `aggregateChildren` embed the include-children aggregation
  (lines 202-211);
* `runLoop` embeds the main event loop of `monitor` (lines 153-235);
* `render` embeds the chart-rendering block (lines 240-285);
* `monitor` embeds the whole `monitor` function, `mainRun` embeds `main`.

Integer and floating-point quantities of the source are modelled as rationals
(`ℚ`); a query of the process-handle API that may raise is modelled as an
`Option` holding the value it would return, `none` standing for the raised
exception.
-/

namespace Psrecord

/-- Liveness status of a process as reported by `pr.status()` (psutil). -/
inductive Status where
  | running
  | sleeping
  | zombie
  | dead
deriving DecidableEq, Repr

/-- Result of `memory_info()`: resident and virtual set sizes in bytes. -/
structure MemInfo where
  rss : ℚ
  vms : ℚ
deriving DecidableEq, Repr

/-- A process node as observed during one sample pass: the value its CPU
query (`get_percent`) would return (`none` when the query raises), likewise
for its memory query (`get_memory`) and its children query (`children()`,
where a raised exception leaves `all_children`'s local `children` list
empty, lines 51-56). -/
inductive ProcNode : Type where
  | mk : Option ℚ → Option MemInfo → Option (List ProcNode) → ProcNode

/-- The CPU-percentage query on a node. -/
def ProcNode.cpuQ : ProcNode → Option ℚ
  | .mk c _ _ => c

/-- The memory query on a node. -/
def ProcNode.memQ : ProcNode → Option MemInfo
  | .mk _ m _ => m

/-- The direct-children query on a node. -/
def ProcNode.childrenQ : ProcNode → Option (List ProcNode)
  | .mk _ _ cs => cs

mutual

/-- `all_children(pr)` (lines 48-61): depth-first pre-order flattening of the
descendant tree; a failing `children()` query contributes no children. -/
def allChildren : ProcNode → List ProcNode
  | .mk _ _ none => []
  | .mk _ _ (some cs) => allChildrenList cs

/-- The `for child in children` loop of `all_children`: emit each child
followed by its own descendants. -/
def allChildrenList : List ProcNode → List ProcNode
  | [] => []
  | c :: rest => (c :: allChildren c) ++ allChildrenList rest

end

/-- One step of the include-children aggregation (lines 204-211).  The source
first executes `current_cpu += get_percent(child)` and then
`current_mem = get_memory(child)` inside one `try`: if the CPU query raises,
nothing is added; if the CPU query succeeds and the memory query raises, the
CPU percentage has already been added when the `continue` fires, so only the
memory contribution is skipped. -/
def childStep (acc : ℚ × ℚ × ℚ) (child : ProcNode) : ℚ × ℚ × ℚ :=
  match child.cpuQ with
  | none => acc
  | some c =>
    match child.memQ with
    | none => (acc.1 + c, acc.2.1, acc.2.2)
    | some m => (acc.1 + c, acc.2.1 + m.rss / 1024 ^ 2, acc.2.2 + m.vms / 1024 ^ 2)

/-- The `for child in all_children(pr)` aggregation loop (lines 203-211),
folding `childStep` over a list of descendants starting from the root's
values. -/
def aggregateChildren (cpu memReal memVirtual : ℚ) (children : List ProcNode) :
    ℚ × ℚ × ℚ :=
  children.foldl childStep (cpu, memReal, memVirtual)

/-- Sum of the CPU percentages of the descendants whose CPU query succeeds. -/
def cpuSum (cs : List ProcNode) : ℚ :=
  (cs.filterMap ProcNode.cpuQ).sum

/-- The memory contribution of one descendant: its memory info when both its
CPU query and its memory query succeed, nothing otherwise (the source only
reaches the memory accumulation after the CPU query succeeded). -/
def memContrib (c : ProcNode) : Option MemInfo :=
  match c.cpuQ with
  | none => none
  | some _ => c.memQ

/-- Sum of the resident-memory contributions (in MB) of the descendants. -/
def memRealSum (cs : List ProcNode) : ℚ :=
  (((cs.filterMap memContrib).map fun m => m.rss / 1024 ^ 2)).sum

/-- Sum of the virtual-memory contributions (in MB) of the descendants. -/
def memVirtSum (cs : List ProcNode) : ℚ :=
  (((cs.filterMap memContrib).map fun m => m.vms / 1024 ^ 2)).sum

lemma aggregateChildren_eq (cpu memReal memVirtual : ℚ) (cs : List ProcNode) :
    aggregateChildren cpu memReal memVirtual cs =
      (cpu + cpuSum cs, memReal + memRealSum cs, memVirtual + memVirtSum cs) := by
  induction cs generalizing cpu memReal memVirtual with
  | nil => simp [aggregateChildren, cpuSum, memRealSum, memVirtSum]
  | cons c rest ih =>
    have hstep : aggregateChildren cpu memReal memVirtual (c :: rest) =
        aggregateChildren (childStep (cpu, memReal, memVirtual) c).1
          (childStep (cpu, memReal, memVirtual) c).2.1
          (childStep (cpu, memReal, memVirtual) c).2.2 rest := rfl
    obtain ⟨cq, mq, kids⟩ := c
    cases cq with
    | none =>
      rw [hstep]
      simp only [childStep, ProcNode.cpuQ]
      rw [ih]
      simp [cpuSum, memRealSum, memVirtSum, memContrib, ProcNode.cpuQ,
        List.filterMap_cons]
    | some c0 =>
      cases mq with
      | none =>
        rw [hstep]
        simp only [childStep, ProcNode.cpuQ, ProcNode.memQ]
        rw [ih]
        simp only [cpuSum, memRealSum, memVirtSum, memContrib, ProcNode.cpuQ,
          ProcNode.memQ, List.filterMap_cons, List.sum_cons, Prod.mk.injEq]
        exact ⟨by ring, trivial⟩
      | some m0 =>
        rw [hstep]
        simp only [childStep, ProcNode.cpuQ, ProcNode.memQ]
        rw [ih]
        simp only [cpuSum, memRealSum, memVirtSum, memContrib, ProcNode.cpuQ,
          ProcNode.memQ, List.filterMap_cons, List.sum_cons, List.map_cons,
          Prod.mk.injEq]
        exact ⟨by ring, by ring, by ring⟩

/-- One recorded point of the series: the values appended to `log[...]` in
the plotting branch (lines 225-232). -/
structure Sample where
  time : ℚ
  cpu : ℚ
  memReal : ℚ
  memVirtual : ℚ
  ioRead : ℚ
  ioWrite : ℚ
deriving DecidableEq, Repr

/-- One data row of the log file (line 214-218): elapsed time, CPU percent,
resident MB, virtual MB. -/
structure LogRow where
  time : ℚ
  cpu : ℚ
  memReal : ℚ
  memVirtual : ℚ
deriving DecidableEq, Repr

/-- What the environment presents to one iteration of the event loop:
the wall-clock time at the top of the iteration (line 159), the result of
the status query (line 162, `none` when `psutil.NoSuchProcess` is raised),
the root node carrying the root CPU/memory query results and the child tree,
the result of `pr.io_counters()` as (read_bytes, write_bytes) with `none`
when the call raises (line 188), and whether a KeyboardInterrupt arrives
during this iteration's `time.sleep(interval)` (line 222). -/
structure IterEnv where
  time : ℚ
  status : Option Status
  root : ProcNode
  io : Option (ℚ × ℚ)
  interrupt : Bool

/-- The keyword arguments of `monitor` (lines 123-124).  `logfile` and
`plot` record only whether the corresponding path argument is set (its
truthiness is all the loop inspects). -/
structure Config where
  logfile : Bool
  plot : Bool
  duration : Option ℚ
  interval : Option ℚ
  includeChildren : Bool
  includeIo : Bool
  maxCpuScale : Bool
deriving DecidableEq, Repr

/-- How the `while True` loop ended (its `break` sites and the surrounding
`except KeyboardInterrupt`).  `finished` is the only exit that prints a
message ("Process finished (... seconds)", lines 170-171); `durationHit`
(line 176), `statusGone` (line 166) and `rootQueryFail` (line 183) are
silent breaks; `interrupted` is the KeyboardInterrupt caught at line 234;
`fuelOut` means the supplied environment trace ended while the loop would
have kept iterating. -/
inductive ExitKind where
  | finished (elapsed : ℚ)
  | durationHit
  | statusGone
  | rootQueryFail
  | interrupted
  | fuelOut
deriving DecidableEq, Repr

/-- Either an ordinary loop exit, or the uncaught exception raised by
`pr.io_counters()` at line 188, which is outside every `try` block of the
loop body and therefore propagates out of `monitor`. -/
inductive LoopExit where
  | exited (k : ExitKind)
  | ioRaised
deriving DecidableEq, Repr

/-- The mutable collections the loop builds: the in-memory series (the
`log` dict, kept only when plotting) and the rows written to the log file. -/
structure LoopState where
  samples : List Sample
  logRows : List LogRow
deriving DecidableEq, Repr

/-- `current_time - start_time > duration` guard (line 175): false when no
duration is configured. -/
def durExceeded : Option ℚ → ℚ → Bool
  | none, _ => false
  | some d, e => decide (d < e)

/-- The `pr_status in [psutil.STATUS_ZOMBIE, psutil.STATUS_DEAD]` test of
line 169. -/
def isDeadStatus (s : Status) : Bool :=
  decide (s = Status.zombie) || decide (s = Status.dead)

/-- A status-query result that lets the iteration proceed past the checks of
lines 161-172: the query succeeded and the status is neither zombie nor
dead. -/
def statusOk : Option Status → Bool
  | none => false
  | some s => !isDeadStatus s

/-- The sample an iteration constructs from the root query results (lines
184-211): memory and I/O byte counts converted to MB by dividing by 1024²,
and, when `include_children` is set, the child aggregation folded over
`all_children` of the root. -/
def mkSample (cfg : Config) (start time : ℚ) (cpu0 : ℚ) (mem0 : MemInfo)
    (io : ℚ × ℚ) (root : ProcNode) : Sample :=
  let agg :=
    if cfg.includeChildren then
      aggregateChildren cpu0 (mem0.rss / 1024 ^ 2) (mem0.vms / 1024 ^ 2)
        (allChildren root)
    else (cpu0, mem0.rss / 1024 ^ 2, mem0.vms / 1024 ^ 2)
  ⟨time - start, agg.1, agg.2.1, agg.2.2, io.1 / 1024 ^ 2, io.2 / 1024 ^ 2⟩

/-- The log row written for a sample (lines 214-218): the same elapsed time,
CPU and memory values; I/O is not logged. -/
def rowOf (s : Sample) : LogRow :=
  ⟨s.time, s.cpu, s.memReal, s.memVirtual⟩

/-- The `while True` event loop of `monitor` (lines 156-232), driven by a
finite trace of per-iteration environments.  Per iteration, in source
order: status query (`none` breaks), zombie/dead check (breaks, printing
the elapsed time), duration check (silent break), root CPU+memory query
(a failure of either breaks), `io_counters` (a failure raises out of the
loop), child aggregation, log-row write + flush, sleep (where a pending
KeyboardInterrupt fires, caught by the handler at line 234), series
append. -/
def runLoop (cfg : Config) (start : ℚ) :
    List IterEnv → LoopState → LoopState × LoopExit
  | [], st => (st, .exited .fuelOut)
  | env :: rest, st =>
    match env.status with
    | none => (st, .exited .statusGone)
    | some s =>
      if isDeadStatus s then
        (st, .exited (.finished (env.time - start)))
      else if durExceeded cfg.duration (env.time - start) then
        (st, .exited .durationHit)
      else
        match env.root.cpuQ, env.root.memQ with
        | some cpu0, some mem0 =>
          match env.io with
          | none => (st, .ioRaised)
          | some io =>
            let smp := mkSample cfg start env.time cpu0 mem0 io env.root
            let st1 :=
              if cfg.logfile then { st with logRows := st.logRows ++ [rowOf smp] }
              else st
            if cfg.interval.isSome && env.interrupt then
              (st1, .exited .interrupted)
            else
              let st2 :=
                if cfg.plot then { st1 with samples := st1.samples ++ [smp] }
                else st1
              runLoop cfg start rest st2
        | _, _ => (st, .exited .rootQueryFail)

/-- Python's built-in `max` over a list of values: raises `ValueError` on an
empty sequence, modelled as `none`. -/
def pyMax : List ℚ → Option ℚ
  | [] => none
  | x :: xs => some (xs.foldl max x)

/-- The observable outcome of the plotting block (lines 245-285) this
development tracks: the upper limit chosen for the CPU axis (`ax.set_ylim`,
lines 258 and 261), the upper limit of the secondary axis (`ax3.set_ylim`
line 270 or `ax2.set_ylim` line 280) and whether the I/O curves are drawn. -/
structure Chart where
  cpuYMax : ℚ
  secondaryYMax : ℚ
  showsIo : Bool
deriving DecidableEq, Repr

/-- The chart-rendering block of `monitor` (lines 240-285).  The CPU axis
ceiling is `100 * cpu_count` when `max_cpu_scale` is set and
`max(log[cpu]) * 1.2` otherwise; the secondary axis ceiling is
`max(max(mem_real), max(io_read), max(io_write)) * 1.2` when `include_io`
is set and `max(mem_real) * 1.2` otherwise.  Every `max` call raises on an
empty series (`none`): there is no empty-series guard in the source. -/
def render (includeIo maxCpuScale : Bool) (cpuCount : ℕ) (samples : List Sample) :
    Option Chart :=
  let cpuY :=
    if maxCpuScale then some ((100 : ℚ) * cpuCount)
    else (pyMax (samples.map Sample.cpu)).map fun m => m * (12 / 10)
  match cpuY with
  | none => none
  | some cy =>
    if includeIo then
      match pyMax (samples.map Sample.memReal), pyMax (samples.map Sample.ioRead),
          pyMax (samples.map Sample.ioWrite) with
      | some a, some b, some c => some ⟨cy, max (max a b) c * (12 / 10), true⟩
      | _, _, _ => none
    else
      match pyMax (samples.map Sample.memReal) with
      | some a => some ⟨cy, a * (12 / 10), false⟩
      | none => none

/-- What a call to `monitor` leaves behind: the series and log rows built by
the loop, how the loop exited (`none` when the loop never ran to a `break`
because the log open or `io_counters` raised), whether `f.close()` (line
238) executed, the chart produced, and which of the three possible uncaught
exceptions fired: the log-file open (line 136), the `io_counters` call
(line 188), or the `max` over an empty series in the plotting block. -/
structure MonitorResult where
  samples : List Sample
  logRows : List LogRow
  exit : Option ExitKind
  logClosed : Bool
  chart : Option Chart
  openRaised : Bool
  loopRaised : Bool
  renderRaised : Bool
deriving DecidableEq, Repr

/-- `monitor` raised some exception to its caller. -/
def MonitorResult.raised (m : MonitorResult) : Bool :=
  m.openRaised || m.loopRaised || m.renderRaised

/-- The `monitor` function (lines 123-285): open the log file (an unwritable
path raises here, before the loop), run the event loop, close the log file
(skipped when the loop raised), then render the chart if plotting (where an
empty series raises after the log file was already closed). -/
def monitor (cfg : Config) (logOpenFails : Bool) (cpuCount : ℕ) (start : ℚ)
    (envs : List IterEnv) : MonitorResult :=
  if cfg.logfile && logOpenFails then
    { samples := [], logRows := [], exit := none, logClosed := false,
      chart := none, openRaised := true, loopRaised := false,
      renderRaised := false }
  else
    let r := runLoop cfg start envs ⟨[], []⟩
    match r.2 with
    | .ioRaised =>
      { samples := r.1.samples, logRows := r.1.logRows, exit := none,
        logClosed := false, chart := none, openRaised := false,
        loopRaised := true, renderRaised := false }
    | .exited k =>
      let chart :=
        if cfg.plot then render cfg.includeIo cfg.maxCpuScale cpuCount r.1.samples
        else none
      { samples := r.1.samples, logRows := r.1.logRows, exit := some k,
        logClosed := cfg.logfile, chart := chart, openRaised := false,
        loopRaised := false,
        renderRaised := cfg.plot && (render cfg.includeIo cfg.maxCpuScale
          cpuCount r.1.samples).isNone }

/-- The value the argparse layer produces for `--include-io` (lines 93-95):
`action=store_true` means the flag is `True` exactly when present on the
command line, and `False` by default. -/
def argvIncludeIo (argv : List String) : Bool :=
  argv.contains "--include-io"

/-- The declared default of `monitor`'s `include_io` keyword parameter
(line 124). -/
def monitorIncludeIoDefault : Bool := true

/-- The `include_io` value `main` actually passes to `monitor` (line 117):
always the parsed argparse value, never `monitor`'s own default. -/
def mainIncludeIo (argv : List String) : Bool :=
  argvIncludeIo argv

/-- Outcome of `main` (lines 64-121): whether a process was spawned (the
positional argument did not parse as an integer, lines 104-114), the result
of the `monitor` call, and whether `sprocess.kill()` (line 120) executed.
The `monitor` call is not wrapped in `try`/`finally`, so the kill line runs
only when `monitor` returns without raising. -/
structure MainResult where
  spawned : Bool
  mon : MonitorResult
  killed : Bool
deriving DecidableEq, Repr

/-- The `main` function: attach when the positional argument is an integer,
otherwise spawn; call `monitor`; kill the spawned process only if it exists
and `monitor` returned normally. -/
def mainRun (pidArg : Bool) (cfg : Config) (logOpenFails : Bool)
    (cpuCount : ℕ) (start : ℚ) (envs : List IterEnv) : MainResult :=
  let spawned := !pidArg
  let m := monitor cfg logOpenFails cpuCount start envs
  { spawned := spawned, mon := m, killed := spawned && !m.raised }

/-- An iteration environment that makes the loop body run to completion and
continue: status present and alive, duration budget not exceeded, root CPU,
memory and I/O queries all succeed, and no interrupt fires in the sleep. -/
def iterOk (cfg : Config) (start : ℚ) (env : IterEnv) : Bool :=
  statusOk env.status &&
  !durExceeded cfg.duration (env.time - start) &&
  env.root.cpuQ.isSome && env.root.memQ.isSome && env.io.isSome &&
  !(cfg.interval.isSome && env.interrupt)

/-- The state update a completed (non-breaking) iteration performs: append
the log row (when logging) and the sample (when plotting). -/
def stepState (cfg : Config) (start : ℚ) (env : IterEnv) (st : LoopState) :
    LoopState :=
  match env.root.cpuQ, env.root.memQ, env.io with
  | some cpu0, some mem0, some io =>
    let smp := mkSample cfg start env.time cpu0 mem0 io env.root
    let st1 :=
      if cfg.logfile then { st with logRows := st.logRows ++ [rowOf smp] }
      else st
    if cfg.plot then { st1 with samples := st1.samples ++ [smp] } else st1
  | _, _, _ => st

lemma runLoop_cons_ok (cfg : Config) (start : ℚ) (env : IterEnv)
    (rest : List IterEnv) (st : LoopState) (h : iterOk cfg start env = true) :
    runLoop cfg start (env :: rest) st =
      runLoop cfg start rest (stepState cfg start env st) := by
  simp only [iterOk, Bool.and_eq_true, Bool.not_eq_true'] at h
  obtain ⟨⟨⟨⟨⟨hst, hdur⟩, hcpu⟩, hmem⟩, hio⟩, hint⟩ := h
  obtain ⟨s, hs⟩ : ∃ s, env.status = some s := by
    cases hsq : env.status with
    | none => rw [hsq] at hst; simp [statusOk] at hst
    | some s => exact ⟨s, rfl⟩
  have hsd : isDeadStatus s = false := by
    rw [hs] at hst; simpa [statusOk] using hst
  obtain ⟨cpu0, hcpu0⟩ := Option.isSome_iff_exists.mp hcpu
  obtain ⟨mem0, hmem0⟩ := Option.isSome_iff_exists.mp hmem
  obtain ⟨io0, hio0⟩ := Option.isSome_iff_exists.mp hio
  simp [runLoop, stepState, hs, hsd, hdur, hcpu0, hmem0, hio0, hint]

lemma runLoop_append_ok (cfg : Config) (start : ℚ) (pre rest : List IterEnv)
    (st : LoopState) (h : ∀ e ∈ pre, iterOk cfg start e = true) :
    runLoop cfg start (pre ++ rest) st =
      runLoop cfg start rest
        (pre.foldl (fun s e => stepState cfg start e s) st) := by
  induction pre generalizing st with
  | nil => simp
  | cons e pre ih =>
    have he : iterOk cfg start e = true := h e (List.mem_cons_self e pre)
    have h' : ∀ x ∈ pre, iterOk cfg start x = true := fun x hx =>
      h x (List.mem_cons_of_mem e hx)
    rw [List.cons_append, runLoop_cons_ok cfg start e (pre ++ rest) st he,
      ih (stepState cfg start e st) h']
    simp [List.foldl_cons]

lemma stepState_samples_length (cfg : Config) (start : ℚ) (env : IterEnv)
    (st : LoopState) (hp : cfg.plot = true) (h : iterOk cfg start env = true) :
    (stepState cfg start env st).samples.length = st.samples.length + 1 := by
  simp only [iterOk, Bool.and_eq_true, Bool.not_eq_true'] at h
  obtain ⟨⟨⟨⟨⟨_, _⟩, hcpu⟩, hmem⟩, hio⟩, _⟩ := h
  obtain ⟨cpu0, hcpu0⟩ := Option.isSome_iff_exists.mp hcpu
  obtain ⟨mem0, hmem0⟩ := Option.isSome_iff_exists.mp hmem
  obtain ⟨io0, hio0⟩ := Option.isSome_iff_exists.mp hio
  cases hlog : cfg.logfile <;>
    simp [stepState, hcpu0, hmem0, hio0, hp, hlog]

lemma foldl_stepState_samples_length (cfg : Config) (start : ℚ)
    (pre : List IterEnv) (st : LoopState) (hp : cfg.plot = true)
    (h : ∀ e ∈ pre, iterOk cfg start e = true) :
    (pre.foldl (fun s e => stepState cfg start e s) st).samples.length =
      st.samples.length + pre.length := by
  induction pre generalizing st with
  | nil => simp
  | cons e pre ih =>
    have he : iterOk cfg start e = true := h e (List.mem_cons_self e pre)
    have h' : ∀ x ∈ pre, iterOk cfg start x = true := fun x hx =>
      h x (List.mem_cons_of_mem e hx)
    rw [List.foldl_cons, ih (stepState cfg start e st) h',
      stepState_samples_length cfg start e st hp he, List.length_cons]
    ring

lemma pyMax_isSome {xs : List ℚ} (h : xs ≠ []) : (pyMax xs).isSome = true := by
  cases xs with
  | nil => exact absurd rfl h
  | cons x xs => simp [pyMax]

lemma render_isSome_of_ne_nil (includeIo maxCpuScale : Bool) (cpuCount : ℕ)
    {samples : List Sample} (h : samples ≠ []) :
    (render includeIo maxCpuScale cpuCount samples).isSome = true := by
  cases samples with
  | nil => exact absurd rfl h
  | cons s rest =>
    cases includeIo <;> cases maxCpuScale <;>
      simp [render, pyMax]

lemma mkSample_time (cfg : Config) (start time : ℚ) (cpu0 : ℚ)
    (mem0 : MemInfo) (io : ℚ × ℚ) (root : ProcNode) :
    (mkSample cfg start time cpu0 mem0 io root).time = time - start := rfl

lemma runLoop_samples_time_le (cfg : Config) (d start : ℚ)
    (hd : cfg.duration = some d) :
    ∀ (envs : List IterEnv) (st : LoopState),
      (∀ s ∈ st.samples, s.time ≤ d) →
      ∀ s ∈ (runLoop cfg start envs st).1.samples, s.time ≤ d := by
  intro envs
  induction envs with
  | nil =>
    intro st h
    simpa [runLoop] using h
  | cons env rest ih =>
    intro st h
    cases hsq : env.status with
    | none => simpa [runLoop, hsq] using h
    | some s =>
      cases hsd : isDeadStatus s with
      | true => simpa [runLoop, hsq, hsd] using h
      | false =>
        cases hdur : durExceeded cfg.duration (env.time - start) with
        | true => simpa [runLoop, hsq, hsd, hdur] using h
        | false =>
          have htime : env.time - start ≤ d := by
            have h' := hdur
            rw [hd] at h'
            simpa [durExceeded, not_lt] using h'
          cases hcpu : env.root.cpuQ with
          | none => simpa [runLoop, hsq, hsd, hdur, hcpu] using h
          | some cpu0 =>
            cases hmem : env.root.memQ with
            | none => simpa [runLoop, hsq, hsd, hdur, hcpu, hmem] using h
            | some mem0 =>
              cases hio : env.io with
              | none => simpa [runLoop, hsq, hsd, hdur, hcpu, hmem, hio] using h
              | some io0 =>
                cases hint : (cfg.interval.isSome && env.interrupt) with
                | true =>
                  cases hlog : cfg.logfile <;>
                    simpa [runLoop, hsq, hsd, hdur, hcpu, hmem, hio, hint,
                      hlog] using h
                | false =>
                  have hok : iterOk cfg start env = true := by
                    simp [iterOk, statusOk, hsq, hsd, hdur, hcpu, hmem, hio,
                      hint]
                  rw [runLoop_cons_ok cfg start env rest st hok]
                  apply ih
                  have hss : (stepState cfg start env st).samples = st.samples ∨
                      (stepState cfg start env st).samples = st.samples ++
                        [mkSample cfg start env.time cpu0 mem0 io0 env.root] := by
                    cases hplot : cfg.plot <;> cases hlog : cfg.logfile <;>
                      simp [stepState, hcpu, hmem, hio, hplot, hlog]
                  intro x hx
                  rcases hss with hss | hss <;> rw [hss] at hx
                  · exact h x hx
                  · rcases List.mem_append.mp hx with hx | hx
                    · exact h x hx
                    · rw [List.mem_singleton] at hx
                      subst hx
                      simpa [mkSample_time] using htime

lemma runLoop_log_samples_len (cfg : Config) (start : ℚ)
    (hl : cfg.logfile = true) (hp : cfg.plot = true) :
    ∀ (envs : List IterEnv) (st : LoopState),
      st.samples.length = st.logRows.length →
      (runLoop cfg start envs st).1.samples.length ≤
          (runLoop cfg start envs st).1.logRows.length ∧
        ((runLoop cfg start envs st).2 = .exited .interrupted →
          (runLoop cfg start envs st).1.logRows.length =
            (runLoop cfg start envs st).1.samples.length + 1) := by
  intro envs
  induction envs with
  | nil =>
    intro st h
    refine ⟨le_of_eq ?_, ?_⟩ <;> simp [runLoop, h]
  | cons env rest ih =>
    intro st h
    cases hsq : env.status with
    | none => refine ⟨le_of_eq ?_, ?_⟩ <;> simp [runLoop, hsq, h]
    | some s =>
      cases hsd : isDeadStatus s with
      | true => refine ⟨le_of_eq ?_, ?_⟩ <;> simp [runLoop, hsq, hsd, h]
      | false =>
        cases hdur : durExceeded cfg.duration (env.time - start) with
        | true =>
          refine ⟨le_of_eq ?_, ?_⟩ <;> simp [runLoop, hsq, hsd, hdur, h]
        | false =>
          cases hcpu : env.root.cpuQ with
          | none =>
            refine ⟨le_of_eq ?_, ?_⟩ <;>
              simp [runLoop, hsq, hsd, hdur, hcpu, h]
          | some cpu0 =>
            cases hmem : env.root.memQ with
            | none =>
              refine ⟨le_of_eq ?_, ?_⟩ <;>
                simp [runLoop, hsq, hsd, hdur, hcpu, hmem, h]
            | some mem0 =>
              cases hio : env.io with
              | none =>
                refine ⟨le_of_eq ?_, ?_⟩ <;>
                  simp [runLoop, hsq, hsd, hdur, hcpu, hmem, hio, h]
              | some io0 =>
                cases hint : (cfg.interval.isSome && env.interrupt) with
                | true =>
                  constructor
                  · simp [runLoop, hsq, hsd, hdur, hcpu, hmem, hio, hint, hl, h]
                  · intro _
                    simp [runLoop, hsq, hsd, hdur, hcpu, hmem, hio, hint, hl, h]
                | false =>
                  have hok : iterOk cfg start env = true := by
                    simp [iterOk, statusOk, hsq, hsd, hdur, hcpu, hmem, hio,
                      hint]
                  rw [runLoop_cons_ok cfg start env rest st hok]
                  apply ih
                  simp [stepState, hcpu, hmem, hio, hl, hp, h]

lemma runLoop_config_congr (l p : Bool) (dur intv : Option ℚ)
    (ic iov iov' mcs mcs' : Bool) (start : ℚ) :
    ∀ (envs : List IterEnv) (st : LoopState),
      runLoop ⟨l, p, dur, intv, ic, iov, mcs⟩ start envs st =
        runLoop ⟨l, p, dur, intv, ic, iov', mcs'⟩ start envs st := by
  intro envs
  induction envs with
  | nil => intro st; rfl
  | cons env rest ih =>
    intro st
    cases hsq : env.status with
    | none => simp [runLoop, hsq]
    | some s =>
      cases hsd : isDeadStatus s with
      | true => simp [runLoop, hsq, hsd]
      | false =>
        cases hdur : durExceeded dur (env.time - start) with
        | true => simp [runLoop, hsq, hsd, hdur]
        | false =>
          cases hcpu : env.root.cpuQ with
          | none => simp [runLoop, hsq, hsd, hdur, hcpu]
          | some cpu0 =>
            cases hmem : env.root.memQ with
            | none => simp [runLoop, hsq, hsd, hdur, hcpu, hmem]
            | some mem0 =>
              cases hio : env.io with
              | none => simp [runLoop, hsq, hsd, hdur, hcpu, hmem, hio]
              | some io0 =>
                cases hint : (intv.isSome && env.interrupt) with
                | true =>
                  simp only [runLoop, hsq, hsd, hdur, hcpu, hmem, hio, hint]
                  rfl
                | false =>
                  simp only [runLoop, hsq, hsd, hdur, hcpu, hmem, hio, hint,
                    Bool.false_eq_true, if_false]
                  exact ih _

/-- C2, counterexample.  The claim says the empty-series case is detected
and handled for every combination of the include-I/O and max-CPU-scale
flags; in fact rendering a zero-sample series hits Python's `max` on an
empty sequence (a `ValueError`, modelled as `none`) in all four flag
combinations. -/
theorem render_empty_series_raises_all_flags :
    render true true 4 [] = none ∧ render true false 4 [] = none ∧
      render false true 4 [] = none ∧ render false false 4 [] = none := by
  decide

/-- C2, amended: rendering a chart from a series with zero collected samples
always propagates the undefined-max fault (the `max` calls of lines 261, 270
and 280 raise `ValueError` on an empty sequence), whatever the include-I/O
and max-CPU-scale flags are; the empty-series case is never detected or
handled in the source. -/
theorem render_empty_series_always_raises (includeIo maxCpuScale : Bool)
    (cpuCount : ℕ) : render includeIo maxCpuScale cpuCount [] = none := by
  cases includeIo <;> cases maxCpuScale <;> simp [render, pyMax]

/-- C5, counterexample.  The claim says a descendant whose per-metric query
fails contributes nothing to the sample's aggregate.  Take a root at CPU 10,
memory (2, 3) MB-equivalent accumulators, and one child whose CPU query
returns 15 but whose memory query fails: the aggregate CPU becomes 25, not
10 — the failing child's CPU percentage was already added (line 206) before
the memory query raised (line 207). -/
theorem child_mem_failure_still_adds_cpu :
    (aggregateChildren 10 2 3 [ProcNode.mk (some 15) none none]).1 = 25 ∧
      aggregateChildren 10 2 3 [ProcNode.mk (some 15) none none] ≠
        (10, 2, 3) := by
  have key : aggregateChildren 10 2 3 [ProcNode.mk (some 15) none none] =
      ((25 : ℚ), (2 : ℚ), (3 : ℚ)) := by
    simp [aggregateChildren, childStep, ProcNode.cpuQ, ProcNode.memQ]
    norm_num
  refine ⟨by rw [key], ?_⟩
  rw [key]
  simp only [ne_eq, Prod.mk.injEq, not_and]
  intro h
  norm_num at h

/-- C5, amended: with include-children enabled, a descendant whose CPU query
fails contributes nothing to the aggregate; but a descendant whose CPU query
succeeds and whose memory query then fails still contributes its CPU
percentage (only its memory is excluded).  In both cases the root and the
other descendants are aggregated unchanged. -/
theorem child_query_failure_contributions :
    (∀ (cpu mr mv : ℚ) (pre post : List ProcNode) (c : ProcNode),
      c.cpuQ = none →
        aggregateChildren cpu mr mv (pre ++ c :: post) =
          aggregateChildren cpu mr mv (pre ++ post)) ∧
    (∀ (cpu mr mv x : ℚ) (pre post : List ProcNode) (c : ProcNode),
      c.cpuQ = some x → c.memQ = none →
        aggregateChildren cpu mr mv (pre ++ c :: post) =
          ((aggregateChildren cpu mr mv (pre ++ post)).1 + x,
           (aggregateChildren cpu mr mv (pre ++ post)).2.1,
           (aggregateChildren cpu mr mv (pre ++ post)).2.2)) := by
  constructor
  · intro cpu mr mv pre post c hc
    have hmc : memContrib c = none := by simp [memContrib, hc]
    simp [aggregateChildren_eq, cpuSum, memRealSum, memVirtSum,
      List.filterMap_append, List.filterMap_cons, hc, hmc]
  · intro cpu mr mv x pre post c hc hm
    have hmc : memContrib c = none := by simp [memContrib, hc, hm]
    simp only [aggregateChildren_eq, cpuSum, memRealSum, memVirtSum,
      List.filterMap_append, List.filterMap_cons, hc, hmc, List.sum_append,
      List.sum_cons, List.map_append, Prod.mk.injEq]
    exact ⟨by ring, trivial⟩

/-- C5, witness: one child with CPU 15 and a failing memory query, around a
root accumulator (10, 2, 3), yields aggregate (25, 2, 3). -/
theorem child_query_failure_contributions_witness :
    aggregateChildren 10 2 3 [ProcNode.mk (some 15) none none] = (25, 2, 3) := by
  have h := child_query_failure_contributions.2 10 2 3 15 [] []
    (ProcNode.mk (some 15) none none) rfl rfl
  simp only [List.nil_append] at h
  rw [h]
  have hnil : aggregateChildren 10 2 3 ([] : List ProcNode) = (10, 2, 3) := rfl
  rw [hnil]
  norm_num

/-- C6: with include-children enabled, the sample built by an iteration has
aggregate CPU equal to the root's CPU plus the sum of the CPU percentages of
every descendant whose CPU query succeeded, aggregate memory equal to the
root's memory plus the memory of every descendant whose CPU and memory
queries both succeeded, and I/O read/write values taken from the root's
`io_counters` alone (descendants' I/O is never queried, lines 188-211). -/
theorem sample_aggregates_cpu_mem_root_io (cfg : Config)
    (hic : cfg.includeChildren = true) (start time cpu0 : ℚ) (mem0 : MemInfo)
    (io : ℚ × ℚ) (root : ProcNode) :
    mkSample cfg start time cpu0 mem0 io root =
      ⟨time - start,
       cpu0 + cpuSum (allChildren root),
       mem0.rss / 1024 ^ 2 + memRealSum (allChildren root),
       mem0.vms / 1024 ^ 2 + memVirtSum (allChildren root),
       io.1 / 1024 ^ 2, io.2 / 1024 ^ 2⟩ := by
  simp [mkSample, hic, aggregateChildren_eq]

/-- C6, witness: a root at CPU 10% with two children at 15% each yields an
aggregate CPU of 40% for that sample, with I/O coming from the root's
counters. -/
theorem sample_aggregates_cpu_mem_root_io_witness :
    mkSample ⟨false, false, none, none, true, false, false⟩ 0 2 10 ⟨0, 0⟩ (0, 0)
        (ProcNode.mk (some 10) (some ⟨0, 0⟩)
          (some [ProcNode.mk (some 15) (some ⟨0, 0⟩) none,
                 ProcNode.mk (some 15) (some ⟨0, 0⟩) none])) =
      ⟨2, 40, 0, 0, 0, 0⟩ := by
  have h := sample_aggregates_cpu_mem_root_io
    ⟨false, false, none, none, true, false, false⟩ rfl 0 2 10 ⟨0, 0⟩ (0, 0)
    (ProcNode.mk (some 10) (some ⟨0, 0⟩)
      (some [ProcNode.mk (some 15) (some ⟨0, 0⟩) none,
             ProcNode.mk (some 15) (some ⟨0, 0⟩) none]))
  rw [h]
  simp [allChildren, allChildrenList, cpuSum, memRealSum, memVirtSum,
    memContrib, ProcNode.cpuQ, ProcNode.memQ]
  norm_num

lemma monitor_of_runLoop (cfg : Config) (cpuCount : ℕ) (start : ℚ)
    (envs : List IterEnv) (st : LoopState) (k : ExitKind)
    (h : runLoop cfg start envs ⟨[], []⟩ = (st, .exited k)) :
    monitor cfg false cpuCount start envs =
      { samples := st.samples, logRows := st.logRows, exit := some k,
        logClosed := cfg.logfile,
        chart := if cfg.plot then
            render cfg.includeIo cfg.maxCpuScale cpuCount st.samples
          else none,
        openRaised := false, loopRaised := false,
        renderRaised := cfg.plot &&
          (render cfg.includeIo cfg.maxCpuScale cpuCount st.samples).isNone } := by
  simp [monitor, h]

/-- C7: when the root's status is zombie or dead at the status check of an
iteration, the loop stops with the "Process finished" report carrying the
elapsed time, and no sample is recorded for that iteration: with charting
enabled, exactly the samples of the prior iterations are retained. -/
theorem zombie_exit_keeps_prior_samples (cfg : Config) (hp : cfg.plot = true)
    (cpuCount : ℕ) (start : ℚ) (pre : List IterEnv) (env : IterEnv)
    (rest : List IterEnv) (hpre : ∀ e ∈ pre, iterOk cfg start e = true)
    (hst : env.status = some Status.zombie ∨ env.status = some Status.dead) :
    (monitor cfg false cpuCount start (pre ++ env :: rest)).exit =
        some (ExitKind.finished (env.time - start)) ∧
      (monitor cfg false cpuCount start (pre ++ env :: rest)).samples.length =
        pre.length := by
  obtain ⟨s, hs, hds⟩ : ∃ s, env.status = some s ∧ isDeadStatus s = true := by
    rcases hst with h | h
    · exact ⟨Status.zombie, h, by simp [isDeadStatus]⟩
    · exact ⟨Status.dead, h, by simp [isDeadStatus]⟩
  have hloop : runLoop cfg start (pre ++ env :: rest) ⟨[], []⟩ =
      (pre.foldl (fun st e => stepState cfg start e st) ⟨[], []⟩,
        .exited (.finished (env.time - start))) := by
    rw [runLoop_append_ok cfg start pre (env :: rest) ⟨[], []⟩ hpre]
    simp [runLoop, hs, hds]
  rw [monitor_of_runLoop cfg cpuCount start (pre ++ env :: rest) _ _ hloop]
  refine ⟨rfl, ?_⟩
  have hlen := foldl_stepState_samples_length cfg start pre ⟨[], []⟩ hp hpre
  simpa using hlen

/-- C7, witness: status running for iterations 1-3 and zombie on iteration 4
yields exactly 3 samples and a finished exit at elapsed time 4. -/
theorem zombie_exit_keeps_prior_samples_witness :
    (monitor ⟨false, true, none, none, false, false, false⟩ false 1 0
        [⟨1, some Status.running, ProcNode.mk (some 5) (some ⟨0, 0⟩) none,
            some (0, 0), false⟩,
         ⟨2, some Status.running, ProcNode.mk (some 5) (some ⟨0, 0⟩) none,
            some (0, 0), false⟩,
         ⟨3, some Status.running, ProcNode.mk (some 5) (some ⟨0, 0⟩) none,
            some (0, 0), false⟩,
         ⟨4, some Status.zombie, ProcNode.mk (some 5) (some ⟨0, 0⟩) none,
            some (0, 0), false⟩]).exit =
        some (ExitKind.finished (4 - 0)) ∧
      (monitor ⟨false, true, none, none, false, false, false⟩ false 1 0
        [⟨1, some Status.running, ProcNode.mk (some 5) (some ⟨0, 0⟩) none,
            some (0, 0), false⟩,
         ⟨2, some Status.running, ProcNode.mk (some 5) (some ⟨0, 0⟩) none,
            some (0, 0), false⟩,
         ⟨3, some Status.running, ProcNode.mk (some 5) (some ⟨0, 0⟩) none,
            some (0, 0), false⟩,
         ⟨4, some Status.zombie, ProcNode.mk (some 5) (some ⟨0, 0⟩) none,
            some (0, 0), false⟩]).samples.length = 3 := by
  have h := zombie_exit_keeps_prior_samples
    ⟨false, true, none, none, false, false, false⟩ rfl 1 0
    [⟨1, some Status.running, ProcNode.mk (some 5) (some ⟨0, 0⟩) none,
        some (0, 0), false⟩,
     ⟨2, some Status.running, ProcNode.mk (some 5) (some ⟨0, 0⟩) none,
        some (0, 0), false⟩,
     ⟨3, some Status.running, ProcNode.mk (some 5) (some ⟨0, 0⟩) none,
        some (0, 0), false⟩]
    ⟨4, some Status.zombie, ProcNode.mk (some 5) (some ⟨0, 0⟩) none,
        some (0, 0), false⟩
    [] (by decide) (Or.inl rfl)
  simpa using h

/-- C8: if a maximum duration d is configured and the elapsed time at some
iteration's duration check exceeds d (after any number of in-budget
iterations), the loop terminates there with the silent duration break — no
"finished" message, no further iterations consumed — and every recorded
sample's elapsed time is at most d (so in particular within d plus one
iteration of slack). -/
theorem duration_exceeded_silent_bounded (cfg : Config) (d : ℚ)
    (hd : cfg.duration = some d) (cpuCount : ℕ) (start : ℚ)
    (pre : List IterEnv) (env : IterEnv) (rest : List IterEnv)
    (hpre : ∀ e ∈ pre, iterOk cfg start e = true)
    (hst : statusOk env.status = true) (hexc : d < env.time - start) :
    (monitor cfg false cpuCount start (pre ++ env :: rest)).exit =
        some ExitKind.durationHit ∧
      ∀ s ∈ (monitor cfg false cpuCount start (pre ++ env :: rest)).samples,
        s.time ≤ d := by
  obtain ⟨s, hs, hds⟩ : ∃ s, env.status = some s ∧ isDeadStatus s = false := by
    cases hsq : env.status with
    | none => rw [hsq] at hst; simp [statusOk] at hst
    | some s =>
      refine ⟨s, rfl, ?_⟩
      rw [hsq] at hst
      simpa [statusOk] using hst
  have hdurB : durExceeded cfg.duration (env.time - start) = true := by
    rw [hd]
    simpa [durExceeded] using hexc
  have hloop : runLoop cfg start (pre ++ env :: rest) ⟨[], []⟩ =
      (pre.foldl (fun st e => stepState cfg start e st) ⟨[], []⟩,
        .exited .durationHit) := by
    rw [runLoop_append_ok cfg start pre (env :: rest) ⟨[], []⟩ hpre]
    simp [runLoop, hs, hds, hdurB]
  constructor
  · rw [monitor_of_runLoop cfg cpuCount start (pre ++ env :: rest) _ _ hloop]
  · have hall := runLoop_samples_time_le cfg d start hd (pre ++ env :: rest)
      ⟨[], []⟩ (by intro x hx; simp at hx)
    rw [monitor_of_runLoop cfg cpuCount start (pre ++ env :: rest) _ _ hloop]
    intro x hx
    apply hall
    rw [hloop]
    exact hx

/-- C8, witness: with duration 10, two in-budget iterations at times 1 and 2
and a third at time 12, the run exits with the silent duration break and
every sample's elapsed time is at most 10. -/
theorem duration_exceeded_silent_bounded_witness :
    (monitor ⟨false, true, some 10, none, false, false, false⟩ false 1 0
        [⟨1, some Status.running, ProcNode.mk (some 5) (some ⟨0, 0⟩) none,
            some (0, 0), false⟩,
         ⟨2, some Status.running, ProcNode.mk (some 5) (some ⟨0, 0⟩) none,
            some (0, 0), false⟩,
         ⟨12, some Status.running, ProcNode.mk (some 5) (some ⟨0, 0⟩) none,
            some (0, 0), false⟩]).exit = some ExitKind.durationHit ∧
      ∀ s ∈ (monitor ⟨false, true, some 10, none, false, false, false⟩ false 1 0
        [⟨1, some Status.running, ProcNode.mk (some 5) (some ⟨0, 0⟩) none,
            some (0, 0), false⟩,
         ⟨2, some Status.running, ProcNode.mk (some 5) (some ⟨0, 0⟩) none,
            some (0, 0), false⟩,
         ⟨12, some Status.running, ProcNode.mk (some 5) (some ⟨0, 0⟩) none,
            some (0, 0), false⟩]).samples, s.time ≤ 10 := by
  have h := duration_exceeded_silent_bounded
    ⟨false, true, some 10, none, false, false, false⟩ 10 rfl 1 0
    [⟨1, some Status.running, ProcNode.mk (some 5) (some ⟨0, 0⟩) none,
        some (0, 0), false⟩,
     ⟨2, some Status.running, ProcNode.mk (some 5) (some ⟨0, 0⟩) none,
        some (0, 0), false⟩]
    ⟨12, some Status.running, ProcNode.mk (some 5) (some ⟨0, 0⟩) none,
        some (0, 0), false⟩
    [] ?_ rfl ?_
  · simpa using h
  · intro e he
    simp only [List.mem_cons, List.not_mem_nil, or_false] at he
    rcases he with rfl | rfl <;>
      simp [iterOk, statusOk, isDeadStatus, durExceeded, ProcNode.cpuQ,
        ProcNode.memQ] <;> norm_num
  · norm_num

/-- C3, counterexample.  The claim says that whenever any metric query on
the root (CPU, memory, or I/O counters) fails, the loop terminates cleanly,
the log file is still closed and the chart is still rendered.  A failing
`io_counters()` call (line 188, outside every `try`) instead propagates out
of `monitor`: with logging and plotting enabled, the run raises, the log
file is never closed and no chart is produced. -/
theorem io_counters_failure_propagates :
    (monitor ⟨true, true, none, some 1, false, true, false⟩ false 1 0
        [⟨1, some Status.running, ProcNode.mk (some 5) (some ⟨0, 0⟩) none,
            none, false⟩]).raised = true ∧
      (monitor ⟨true, true, none, some 1, false, true, false⟩ false 1 0
        [⟨1, some Status.running, ProcNode.mk (some 5) (some ⟨0, 0⟩) none,
            none, false⟩]).logClosed = false ∧
      (monitor ⟨true, true, none, some 1, false, true, false⟩ false 1 0
        [⟨1, some Status.running, ProcNode.mk (some 5) (some ⟨0, 0⟩) none,
            none, false⟩]).chart = none := by
  simp [monitor, MonitorResult.raised, runLoop, durExceeded, isDeadStatus,
    ProcNode.cpuQ, ProcNode.memQ]

/-- C3, amended: a failing CPU or memory query on the root is absorbed: the
loop breaks (exit `rootQueryFail`), the log file is still closed, the
samples collected so far are retained and — when at least one sample exists
— the chart is still rendered, so `monitor` returns without raising.  (A
failing `io_counters` query, by contrast, propagates: see the
counterexample.) -/
theorem root_cpu_mem_failure_absorbed (cfg : Config) (hl : cfg.logfile = true)
    (hp : cfg.plot = true) (cpuCount : ℕ) (start : ℚ) (pre : List IterEnv)
    (env : IterEnv) (rest : List IterEnv)
    (hpre : ∀ e ∈ pre, iterOk cfg start e = true) (hne : pre ≠ [])
    (hst : statusOk env.status = true)
    (hdur : durExceeded cfg.duration (env.time - start) = false)
    (hfail : env.root.cpuQ = none ∨ env.root.memQ = none) :
    (monitor cfg false cpuCount start (pre ++ env :: rest)).exit =
        some ExitKind.rootQueryFail ∧
      (monitor cfg false cpuCount start (pre ++ env :: rest)).logClosed = true ∧
      (monitor cfg false cpuCount start (pre ++ env :: rest)).samples.length =
        pre.length ∧
      (monitor cfg false cpuCount start (pre ++ env :: rest)).raised = false ∧
      (monitor cfg false cpuCount start
        (pre ++ env :: rest)).chart.isSome = true := by
  obtain ⟨s, hs, hds⟩ : ∃ s, env.status = some s ∧ isDeadStatus s = false := by
    cases hsq : env.status with
    | none => rw [hsq] at hst; simp [statusOk] at hst
    | some s =>
      refine ⟨s, rfl, ?_⟩
      rw [hsq] at hst
      simpa [statusOk] using hst
  have hstep : ∀ st, runLoop cfg start (env :: rest) st =
      (st, .exited .rootQueryFail) := by
    intro st
    rcases hfail with hc | hm
    · simp [runLoop, hs, hds, hdur, hc]
    · cases hc : env.root.cpuQ with
      | none => simp [runLoop, hs, hds, hdur, hc]
      | some c0 => simp [runLoop, hs, hds, hdur, hc, hm]
  have hloop : runLoop cfg start (pre ++ env :: rest) ⟨[], []⟩ =
      (pre.foldl (fun st e => stepState cfg start e st) ⟨[], []⟩,
        .exited .rootQueryFail) := by
    rw [runLoop_append_ok cfg start pre (env :: rest) ⟨[], []⟩ hpre, hstep]
  have hlen : (pre.foldl (fun st e => stepState cfg start e st)
      ⟨[], []⟩).samples.length = pre.length := by
    simpa using foldl_stepState_samples_length cfg start pre ⟨[], []⟩ hp hpre
  have hsne : (pre.foldl (fun st e => stepState cfg start e st)
      ⟨[], []⟩).samples ≠ [] := by
    intro hnil
    rw [hnil] at hlen
    exact hne (List.eq_nil_of_length_eq_zero hlen.symm)
  have hrender := render_isSome_of_ne_nil cfg.includeIo cfg.maxCpuScale
    cpuCount hsne
  obtain ⟨ch, hch⟩ := Option.isSome_iff_exists.mp hrender
  rw [monitor_of_runLoop cfg cpuCount start (pre ++ env :: rest) _ _ hloop]
  exact ⟨rfl, hl, hlen, by simp [MonitorResult.raised, hch], by simp [hp, hch]⟩

/-- C3, witness: one successful iteration, then a failing root CPU query at
time 2 — the run ends with the absorbed `rootQueryFail` break, the log file
closed, one sample kept, a chart rendered and nothing raised. -/
theorem root_cpu_mem_failure_absorbed_witness :
    (monitor ⟨true, true, none, none, false, true, false⟩ false 1 0
        [⟨1, some Status.running, ProcNode.mk (some 5) (some ⟨0, 0⟩) none,
            some (0, 0), false⟩,
         ⟨2, some Status.running, ProcNode.mk none (some ⟨0, 0⟩) none,
            some (0, 0), false⟩]).exit = some ExitKind.rootQueryFail ∧
      (monitor ⟨true, true, none, none, false, true, false⟩ false 1 0
        [⟨1, some Status.running, ProcNode.mk (some 5) (some ⟨0, 0⟩) none,
            some (0, 0), false⟩,
         ⟨2, some Status.running, ProcNode.mk none (some ⟨0, 0⟩) none,
            some (0, 0), false⟩]).logClosed = true ∧
      (monitor ⟨true, true, none, none, false, true, false⟩ false 1 0
        [⟨1, some Status.running, ProcNode.mk (some 5) (some ⟨0, 0⟩) none,
            some (0, 0), false⟩,
         ⟨2, some Status.running, ProcNode.mk none (some ⟨0, 0⟩) none,
            some (0, 0), false⟩]).samples.length = 1 ∧
      (monitor ⟨true, true, none, none, false, true, false⟩ false 1 0
        [⟨1, some Status.running, ProcNode.mk (some 5) (some ⟨0, 0⟩) none,
            some (0, 0), false⟩,
         ⟨2, some Status.running, ProcNode.mk none (some ⟨0, 0⟩) none,
            some (0, 0), false⟩]).raised = false := by
  have h := root_cpu_mem_failure_absorbed
    ⟨true, true, none, none, false, true, false⟩ rfl rfl 1 0
    [⟨1, some Status.running, ProcNode.mk (some 5) (some ⟨0, 0⟩) none,
        some (0, 0), false⟩]
    ⟨2, some Status.running, ProcNode.mk none (some ⟨0, 0⟩) none,
        some (0, 0), false⟩
    [] (by decide) (List.cons_ne_nil _ _) rfl rfl (Or.inl rfl)
  exact ⟨h.1, h.2.1, h.2.2.1, h.2.2.2.1⟩

/-- C4, counterexample.  The claim says no target process is spawned or
attached if opening the log file fails.  In the source, `main` spawns the
shell command (line 113) before calling `monitor` (line 116), and `monitor`
only then opens the log file (line 136): a run in spawn mode with an
unwritable log path has already spawned the process when the open raises —
and, monitor having raised, the spawned process is not even killed. -/
theorem log_open_failure_after_spawn :
    (mainRun false ⟨true, false, none, none, false, false, false⟩ true 1 0
        []).spawned = true ∧
      (mainRun false ⟨true, false, none, none, false, false, false⟩ true 1 0
        []).mon.openRaised = true ∧
      (mainRun false ⟨true, false, none, none, false, false, false⟩ true 1 0
        []).killed = false := by
  simp [mainRun, monitor, MonitorResult.raised]

/-- C4, amended: an unwritable log path is surfaced as a fatal error before
the sampling loop runs — no sample is collected, no log row is written, the
loop never reaches any exit — but only after the target process was already
spawned or attached (`main` resolves the pid and spawns before calling
`monitor`, and `monitor` creates the process handle before opening the log
file); in spawn mode the spawned process is then not killed. -/
theorem log_open_failure_before_loop (pidArg : Bool) (cfg : Config)
    (hl : cfg.logfile = true) (cpuCount : ℕ) (start : ℚ)
    (envs : List IterEnv) :
    (mainRun pidArg cfg true cpuCount start envs).mon.openRaised = true ∧
      (mainRun pidArg cfg true cpuCount start envs).mon.samples = [] ∧
      (mainRun pidArg cfg true cpuCount start envs).mon.logRows = [] ∧
      (mainRun pidArg cfg true cpuCount start envs).mon.exit = none ∧
      (mainRun pidArg cfg true cpuCount start envs).killed = false ∧
      (mainRun pidArg cfg true cpuCount start envs).spawned = !pidArg := by
  simp [mainRun, monitor, MonitorResult.raised, hl]

/-- C4, witness: spawn mode with a failing log open — the open raises, the
loop never runs, nothing is recorded, and the spawned process is not
killed. -/
theorem log_open_failure_before_loop_witness :
    (mainRun false ⟨true, true, some 5, some 1, true, true, true⟩ true 2 0
        [⟨1, some Status.running, ProcNode.mk (some 5) (some ⟨0, 0⟩) none,
            some (0, 0), false⟩]).mon.openRaised = true ∧
      (mainRun false ⟨true, true, some 5, some 1, true, true, true⟩ true 2 0
        [⟨1, some Status.running, ProcNode.mk (some 5) (some ⟨0, 0⟩) none,
            some (0, 0), false⟩]).mon.samples = [] ∧
      (mainRun false ⟨true, true, some 5, some 1, true, true, true⟩ true 2 0
        [⟨1, some Status.running, ProcNode.mk (some 5) (some ⟨0, 0⟩) none,
            some (0, 0), false⟩]).mon.exit = none ∧
      (mainRun false ⟨true, true, some 5, some 1, true, true, true⟩ true 2 0
        [⟨1, some Status.running, ProcNode.mk (some 5) (some ⟨0, 0⟩) none,
            some (0, 0), false⟩]).killed = false := by
  have h := log_open_failure_before_loop false
    ⟨true, true, some 5, some 1, true, true, true⟩ rfl 2 0
    [⟨1, some Status.running, ProcNode.mk (some 5) (some ⟨0, 0⟩) none,
        some (0, 0), false⟩]
  exact ⟨h.1, h.2.1, h.2.2.2.1, h.2.2.2.2.1⟩

/-- C1, counterexample.  The claim says the spawned process is killed on
every termination path including error exits of the monitoring loop.  But
`main` does not wrap the `monitor` call in any `try`/`finally`: when an
exception escapes the loop (here a failing `io_counters` query at the first
iteration), `monitor` raises, line 120's `sprocess.kill()` is never reached
and the spawned process is not killed. -/
theorem spawned_not_killed_on_io_exception :
    (mainRun false ⟨false, false, none, none, false, false, false⟩ false 1 0
        [⟨1, some Status.running, ProcNode.mk (some 5) (some ⟨0, 0⟩) none,
            none, false⟩]).spawned = true ∧
      (mainRun false ⟨false, false, none, none, false, false, false⟩ false 1 0
        [⟨1, some Status.running, ProcNode.mk (some 5) (some ⟨0, 0⟩) none,
            none, false⟩]).mon.raised = true ∧
      (mainRun false ⟨false, false, none, none, false, false, false⟩ false 1 0
        [⟨1, some Status.running, ProcNode.mk (some 5) (some ⟨0, 0⟩) none,
            none, false⟩]).killed = false := by
  simp [mainRun, monitor, MonitorResult.raised, runLoop, durExceeded,
    isDeadStatus, ProcNode.cpuQ, ProcNode.memQ]

/-- C1, amended: in spawn mode the spawned process is killed exactly when
`monitor` returns without raising — which covers every loop exit (normal
process end, duration exceeded, interruption, and the absorbed CPU/memory
query break) provided the log open did not fail and, when plotting, at
least one sample was collected; it is not killed when an exception escapes
`monitor` (log-open failure, `io_counters` failure, or the empty-series
chart fault). -/
theorem spawned_killed_on_normal_monitor_exit (cfg : Config)
    (logOpenFails : Bool) (cpuCount : ℕ) (start : ℚ) (envs : List IterEnv)
    (k : ExitKind)
    (hexit : (monitor cfg logOpenFails cpuCount start envs).exit = some k)
    (hsamp : cfg.plot = true →
      (monitor cfg logOpenFails cpuCount start envs).samples ≠ []) :
    (mainRun false cfg logOpenFails cpuCount start envs).spawned = true ∧
      (mainRun false cfg logOpenFails cpuCount start envs).killed = true := by
  suffices hr : (monitor cfg logOpenFails cpuCount start envs).raised = false by
    exact ⟨rfl, by simp [mainRun, hr]⟩
  by_cases hof : (cfg.logfile && logOpenFails) = true
  · simp [monitor, hof] at hexit
  · have hof' : (cfg.logfile && logOpenFails) = false := by simpa using hof
    cases hre : (runLoop cfg start envs ⟨[], []⟩).2 with
    | ioRaised =>
      simp [monitor, hof', hre] at hexit
    | exited k' =>
      simp only [monitor, hof', Bool.false_eq_true, if_false, hre,
        MonitorResult.raised] at hsamp ⊢
      cases hplot : cfg.plot with
      | false => simp [hplot]
      | true =>
        have hne := hsamp hplot
        have hrs := render_isSome_of_ne_nil cfg.includeIo cfg.maxCpuScale
          cpuCount hne
        obtain ⟨c, hc⟩ := Option.isSome_iff_exists.mp hrs
        simp [hplot, hc]

/-- C1, witness: spawn mode, charting enabled, one successful iteration and
then a zombie status — `monitor` returns normally and
`sprocess.kill()` runs. -/
theorem spawned_killed_on_normal_monitor_exit_witness :
    (mainRun false ⟨false, true, none, none, false, false, false⟩ false 1 0
        [⟨1, some Status.running, ProcNode.mk (some 5) (some ⟨0, 0⟩) none,
            some (0, 0), false⟩,
         ⟨2, some Status.zombie, ProcNode.mk (some 5) (some ⟨0, 0⟩) none,
            some (0, 0), false⟩]).spawned = true ∧
      (mainRun false ⟨false, true, none, none, false, false, false⟩ false 1 0
        [⟨1, some Status.running, ProcNode.mk (some 5) (some ⟨0, 0⟩) none,
            some (0, 0), false⟩,
         ⟨2, some Status.zombie, ProcNode.mk (some 5) (some ⟨0, 0⟩) none,
            some (0, 0), false⟩]).killed = true := by
  refine spawned_killed_on_normal_monitor_exit
    ⟨false, true, none, none, false, false, false⟩ false 1 0
    [⟨1, some Status.running, ProcNode.mk (some 5) (some ⟨0, 0⟩) none,
        some (0, 0), false⟩,
     ⟨2, some Status.zombie, ProcNode.mk (some 5) (some ⟨0, 0⟩) none,
        some (0, 0), false⟩]
    (ExitKind.finished 2) ?_ ?_
  · simp [monitor, runLoop, durExceeded, isDeadStatus, ProcNode.cpuQ,
      ProcNode.memQ]
  · intro _
    simp [monitor, runLoop, durExceeded, isDeadStatus, ProcNode.cpuQ,
      ProcNode.memQ]

/-- C9, counterexample.  The claim says the include-I/O-in-chart flag
defaults to true.  `main` always passes the argparse value of
`--include-io` to `monitor`, and argparse's `store_true` makes that value
`False` when the flag is absent: a command line without `--include-io` runs
with the flag off (the `include_io=True` default of `monitor`'s signature is
never used by `main`). -/
theorem include_io_cli_default_false :
    mainIncludeIo [] = false ∧ monitorIncludeIoDefault = true := by
  decide

/-- C9, amended: the CLI flag `--include-io` defaults to false (argparse
`store_true`), although `monitor`'s own `include_io` parameter declares a
default of true which `main` never uses.  The flag is purely a rendering
choice: with every other configuration field held fixed, the samples
collected and the log rows written are identical whether the flag is true
or false. -/
theorem include_io_pure_rendering :
    monitorIncludeIoDefault = true ∧ mainIncludeIo [] = false ∧
    ∀ (l p : Bool) (dur intv : Option ℚ) (ic mcs lof : Bool) (cpuCount : ℕ)
      (start : ℚ) (envs : List IterEnv),
      (monitor ⟨l, p, dur, intv, ic, true, mcs⟩ lof cpuCount start
            envs).samples =
          (monitor ⟨l, p, dur, intv, ic, false, mcs⟩ lof cpuCount start
            envs).samples ∧
        (monitor ⟨l, p, dur, intv, ic, true, mcs⟩ lof cpuCount start
            envs).logRows =
          (monitor ⟨l, p, dur, intv, ic, false, mcs⟩ lof cpuCount start
            envs).logRows := by
  refine ⟨rfl, rfl, ?_⟩
  intro l p dur intv ic mcs lof cpuCount start envs
  have hr := runLoop_config_congr l p dur intv ic true false mcs mcs start
    envs ⟨[], []⟩
  by_cases hof : (l && lof) = true
  · constructor <;> simp [monitor, hof]
  · have hof' : (l && lof) = false := by simpa using hof
    refine ⟨?_, ?_⟩ <;>
      · simp only [monitor, hof', Bool.false_eq_true, if_false, hr]
        cases h2 : (runLoop ⟨l, p, dur, intv, ic, false, mcs⟩ start envs
            ⟨[], []⟩).2 with
        | exited k => simp [h2]
        | ioRaised => simp [h2]

/-- C10: with logging and charting both enabled, the series never has more
entries than the log has data rows (each iteration writes and flushes its
log row before the inter-sample sleep and appends the sample to the series
only after it), and a KeyboardInterrupt arriving during that sleep ends the
run with the log holding exactly one more row than the series has
samples. -/
theorem samples_le_log_rows (cfg : Config) (hl : cfg.logfile = true)
    (hp : cfg.plot = true) (cpuCount : ℕ) (start : ℚ)
    (envs : List IterEnv) :
    (monitor cfg false cpuCount start envs).samples.length ≤
        (monitor cfg false cpuCount start envs).logRows.length ∧
      ((monitor cfg false cpuCount start envs).exit =
          some ExitKind.interrupted →
        (monitor cfg false cpuCount start envs).logRows.length =
          (monitor cfg false cpuCount start envs).samples.length + 1) := by
  have h := runLoop_log_samples_len cfg start hl hp envs ⟨[], []⟩ rfl
  have hof : (cfg.logfile && false) = false := Bool.and_false _
  cases hre : (runLoop cfg start envs ⟨[], []⟩).2 with
  | ioRaised =>
    constructor
    · simp only [monitor, hof, Bool.false_eq_true, if_false, hre]
      exact h.1
    · simp only [monitor, hof, Bool.false_eq_true, if_false, hre]
      intro hcontra
      simp at hcontra
  | exited k =>
    constructor
    · simp only [monitor, hof, Bool.false_eq_true, if_false, hre]
      exact h.1
    · simp only [monitor, hof, Bool.false_eq_true, if_false, hre]
      intro hk
      simp only [Option.some.injEq] at hk
      subst hk
      exact h.2 (by rw [hre])

/-- C10, witness: logging and charting enabled, interval set, and an
interrupt during the first iteration's sleep: the log holds one row while
the series is still empty. -/
theorem samples_le_log_rows_witness :
    (monitor ⟨true, true, none, some 1, false, false, false⟩ false 1 0
        [⟨1, some Status.running, ProcNode.mk (some 5) (some ⟨0, 0⟩) none,
            some (0, 0), true⟩]).logRows.length =
      (monitor ⟨true, true, none, some 1, false, false, false⟩ false 1 0
        [⟨1, some Status.running, ProcNode.mk (some 5) (some ⟨0, 0⟩) none,
            some (0, 0), true⟩]).samples.length + 1 := by
  refine (samples_le_log_rows ⟨true, true, none, some 1, false, false, false⟩
    rfl rfl 1 0
    [⟨1, some Status.running, ProcNode.mk (some 5) (some ⟨0, 0⟩) none,
        some (0, 0), true⟩]).2 ?_
  simp [monitor, runLoop, durExceeded, isDeadStatus, ProcNode.cpuQ,
    ProcNode.memQ]

end Psrecord
